import Mathlib

/- Verification development for the moist-adiabat integrator of the metpy
   repository (src/metpy/vis/skewt.py: moist_lapserate, moist_pseudo_lapserate,
   calc_moist_adiabat, wv_satpressure_mk; src/metpy/calc.py: vapor_pressure).

   Shallow embedding conventions: IEEE doubles are modelled as real numbers,
   numpy 1-d arrays as lists of reals, and a raised IndexError as an
   Except.error value.  All definitions are translated from the Python source;
   the two `spec_...` definitions are, by design, written from the natural
   language specification for comparison with the source-derived ones. -/

noncomputable section

/-- Saturation vapor pressure expression that appears inline inside
calc_moist_adiabat (skewt.py lines 302 and 321):
`6.112 * np.exp(17.67 * T / (243.5 + T))`. -/
def wv_sat_inline (T : ℝ) : ℝ := 6.112 * Real.exp (17.67 * T / (243.5 + T))

/-- Reversible moist adiabatic lapse rate, translated from skewt.py
`moist_lapserate(w, T)` (lines 211-237). -/
def moist_lapserate (w T : ℝ) : ℝ :=
  let g : ℝ := 9.81
  let Cp : ℝ := 1004
  let Rd : ℝ := 287.0
  let Rv : ℝ := 461.51
  let epsilon : ℝ := Rd / Rv
  let T0 : ℝ := 273.15
  let TK := T + T0
  let Lv := 2.5e6 - 2500.0 * T
  let A := Lv * w / (Rd * TK)
  g * (1 + A) / (Cp + Lv * epsilon * A / TK)

/-- Pseudo-adiabatic moist lapse rate, translated from skewt.py
`moist_pseudo_lapserate(w, T)` (lines 239-267). -/
def moist_pseudo_lapserate (w T : ℝ) : ℝ :=
  let g : ℝ := 9.81
  let Cp : ℝ := 1004
  let Cv : ℝ := 717
  let Rd : ℝ := 287.0
  let Rv : ℝ := 461.51
  let epsilon : ℝ := Rd / Rv
  let T0 : ℝ := 273.15
  let TK := T + T0
  let Lv := 2.5e6 - 2500.0 * T
  let A := Lv * w / (Rd * TK)
  g * ((1 + w) * (1 + A) /
       (Cp + w * Cv + Lv * (epsilon + w) * A / TK))

/-- Mixing ratio computed at one stage of the integrator from a temperature
`Tx` and pressure `Px` (skewt.py line 307 / line 322):
`w = epsilon * wv_sat / (P - wv_sat)`. -/
def stageW (Tx Px : ℝ) : ℝ :=
  (287.0 / 461.51) * wv_sat_inline Tx / (Px - wv_sat_inline Tx)

/-- Virtual temperature at one stage (skewt.py line 308 / line 323):
`Tv = (T + T0) * (1 + ((1-epsilon)/epsilon) * w)`. -/
def stageTv (Tx Px : ℝ) : ℝ :=
  (Tx + 273.15) * (1 + ((1 - 287.0 / 461.51) / (287.0 / 461.51)) * stageW Tx Px)

/-- Air density at one stage (skewt.py line 309 / line 324):
`rho = P / (Rd * Tv)`. -/
def stageRho (Tx Px : ℝ) : ℝ := Px / (287.0 * stageTv Tx Px)

/-- Layer thickness at one stage (skewt.py line 310 / line 325):
`Dz = dP / rho / g`; the pressure increment `dP` is passed in unchanged. -/
def stageDz (Tx Px dP : ℝ) : ℝ := dP / stageRho Tx Px / 9.81

/-- Temperature decrement `Gamma * Dz` contributed by one stage of the
layer computation (skewt.py lines 314-315 / lines 326-327). -/
def stageDelta (Tx Px dP : ℝ) : ℝ :=
  moist_lapserate (stageW Tx Px) Tx * stageDz Tx Px dP

/-- Provisional (predictor) top-of-layer temperature, evaluated at
bottom-of-layer values (skewt.py lines 302-315). -/
def predictorT (Tprev pPrev pCur : ℝ) : ℝ :=
  Tprev - stageDelta Tprev pPrev (pPrev - pCur)

/-- Midpoint temperature `Tbar = 0.5*(T[n-1] + T[n])` used by the corrector
(skewt.py line 319), with `T[n]` the predictor's provisional value. -/
def midTemp (Tprev pPrev pCur : ℝ) : ℝ :=
  0.5 * (Tprev + predictorT Tprev pPrev pCur)

/-- One full layer step of calc_moist_adiabat (skewt.py lines 294-327),
translated statement by statement: predictor at bottom-of-layer values,
then an overwriting corrector at the midpoint values `Tbar`, `Pbar`,
reusing the same `dP`. -/
def adiabatStep (Tprev pPrev pCur : ℝ) : ℝ :=
  let Rd : ℝ := 287.0
  let Rv : ℝ := 461.51
  let epsilon : ℝ := Rd / Rv
  let T0 : ℝ := 273.15
  let g : ℝ := 9.81
  let dP := pPrev - pCur
  let wv_sat := wv_sat_inline Tprev
  let w := epsilon * wv_sat / (pPrev - wv_sat)
  let Tv := (Tprev + T0) * (1 + ((1 - epsilon) / epsilon) * w)
  let rho := pPrev / (Rd * Tv)
  let Dz := dP / rho / g
  let Gamma := moist_lapserate w Tprev
  let Tn := Tprev - Gamma * Dz
  let Tbar := 0.5 * (Tprev + Tn)
  let Pbar := 0.5 * (pPrev + pCur)
  let wv_sat2 := wv_sat_inline Tbar
  let w2 := epsilon * wv_sat2 / (Pbar - wv_sat2)
  let Tv2 := (Tbar + T0) * (1 + ((1 - epsilon) / epsilon) * w2)
  let rho2 := Pbar / (Rd * Tv2)
  let Dz2 := dP / rho2 / g
  let Gamma2 := moist_lapserate w2 Tbar
  Tprev - Gamma2 * Dz2

/-- Forward integration loop of calc_moist_adiabat (skewt.py lines 294-327):
given the temperature `Tprev` at pressure `pPrev`, produce the list of
temperatures at the remaining (internal-order) pressure levels. -/
def integrateFrom (Tprev pPrev : ℝ) : List ℝ → List ℝ
  | [] => []
  | pCur :: rest =>
      adiabatStep Tprev pPrev pCur ::
        integrateFrom (adiabatStep Tprev pPrev pCur) pCur rest

/-- Temperature profile built by calc_moist_adiabat over an internal-order
pressure column: `T[0] = Tref` (skewt.py line 285), then the loop. -/
def profileOn (Tref : ℝ) : List ℝ → List ℝ
  | [] => []
  | q0 :: qrest => Tref :: integrateFrom Tref q0 qrest

/-- Direction normalisation of calc_moist_adiabat (skewt.py lines 288-291):
`uP = P[::-1] if P[0] < P[1] else P`.  Only the first two elements are
inspected.  For lists too short to reach the comparison the column is
returned unchanged (calc_moist_adiabat errors out on those anyway). -/
def internalColumn : List ℝ → List ℝ
  | p0 :: p1 :: rest => if p0 < p1 then (p0 :: p1 :: rest).reverse else p0 :: p1 :: rest
  | P => P

/-- calc_moist_adiabat (skewt.py lines 270-329).  A column with fewer than
two levels raises IndexError in the source (`T[0] = Tref` on an empty array,
or the access `P[1]` in the direction test); this is modelled as an
Except.error.  Otherwise the profile is built over the internal-order column
and returned as is - the source performs no un-reversal before `return T`. -/
def calc_moist_adiabat (Tref : ℝ) (P : List ℝ) : Except String (List ℝ) :=
  match P with
  | [] => .error "IndexError"
  | [_] => .error "IndexError"
  | p0 :: p1 :: rest => .ok (profileOn Tref (internalColumn (p0 :: p1 :: rest)))

/-- Constant `sat_pressure_0c = 6.112` from calc.py line 12. -/
def sat_pressure_0c : ℝ := 6.112

/-- General saturation vapor pressure function from calc.py lines 13-28:
`sat_pressure_0c * exp(17.67 * temp / (temp + 243.5))`. -/
def vapor_pressure (temp : ℝ) : ℝ :=
  sat_pressure_0c * Real.exp (17.67 * temp / (temp + 243.5))

/-- Murphy-Koop saturation vapor pressure from skewt.py lines 331-349,
defined alongside the integrator but not used by it. -/
def wv_satpressure_mk (T : ℝ) : ℝ :=
  let TK := T + 273.15
  let log_es := 54.842763 - 6763.22 / TK - 4.21 * Real.log TK + 0.000367 * TK +
    Real.tanh (0.0415 * (TK - 218.8)) *
      (53.878 - 1331.22 / TK - 9.44523 * Real.log TK + 0.014025 * TK)
  Real.exp log_es / 100

/-- Written from the specification text of §4.3 step 1 (predictor, steps
a-g), for comparison with the source-derived definitions: provisional
`T[n] = T[n-1] - Γ(w, T[n-1]) * Dz` with all quantities evaluated at
bottom-of-layer values. -/
def spec_predicted_temp (Tb Pb Pt : ℝ) : ℝ :=
  let dP := Pb - Pt
  let wv := 6.112 * Real.exp (17.67 * Tb / (243.5 + Tb))
  let w := (287.0 / 461.51) * wv / (Pb - wv)
  let Tv := (Tb + 273.15) * (1 + ((1 - 287.0 / 461.51) / (287.0 / 461.51)) * w)
  let rho := Pb / (287.0 * Tv)
  let Dz := dP / rho / 9.81
  Tb - moist_lapserate w Tb * Dz

/-- Written from the specification text of §4.3 step 2 (corrector): repeat
steps a-f at `Tbar = 0.5*(T[n-1]+T[n])`, `Pbar = 0.5*(P[n-1]+P[n])` with the
same `dP`, and overwrite: final `T[n] = T[n-1] - Γ(Tbar) * Dz(Pbar)`. -/
def spec_corrected_temp (Tb Pb Pt : ℝ) : ℝ :=
  let dP := Pb - Pt
  let Tbar := 0.5 * (Tb + spec_predicted_temp Tb Pb Pt)
  let Pbar := 0.5 * (Pb + Pt)
  let wv := 6.112 * Real.exp (17.67 * Tbar / (243.5 + Tbar))
  let w := (287.0 / 461.51) * wv / (Pbar - wv)
  let Tv := (Tbar + 273.15) * (1 + ((1 - 287.0 / 461.51) / (287.0 / 461.51)) * w)
  let rho := Pbar / (287.0 * Tv)
  let Dz := dP / rho / 9.81
  Tb - moist_lapserate w Tbar * Dz

/-- Conditions on one layer under which the corrector stage of the integrator
is physically meaningful: positive, strictly decreasing pressures, midpoint
temperature in the physical range, and midpoint pressure strictly above the
saturation vapor pressure at the midpoint temperature (no mixing-ratio
singularity at the corrector stage). -/
def stepOK (Tprev pPrev pCur : ℝ) : Prop :=
  0 < pCur ∧ pCur < pPrev ∧
  -273.15 < midTemp Tprev pPrev pCur ∧ midTemp Tprev pPrev pCur < 1000 ∧
  wv_sat_inline (midTemp Tprev pPrev pCur) < 0.5 * (pPrev + pCur)

/-- stepOK holding along an entire integration run. -/
def goodRun : ℝ → ℝ → List ℝ → Prop
  | _, _, [] => True
  | Tprev, pPrev, pCur :: rest =>
      stepOK Tprev pPrev pCur ∧ goodRun (adiabatStep Tprev pPrev pCur) pCur rest

/-- goodRun phrased over a whole internal-order column. -/
def goodColumn (Tref : ℝ) : List ℝ → Prop
  | [] => True
  | q0 :: qrest => goodRun Tref q0 qrest

end

/-- moist_lapserate with its local constants inlined, for calculation. -/
theorem moist_lapserate_eq (w T : ℝ) :
    moist_lapserate w T =
      9.81 * (1 + (2.5e6 - 2500.0 * T) * w / (287.0 * (T + 273.15))) /
        (1004 + (2.5e6 - 2500.0 * T) * (287.0 / 461.51) *
          ((2.5e6 - 2500.0 * T) * w / (287.0 * (T + 273.15))) / (T + 273.15)) := rfl

/-- adiabatStep decomposed: one full layer step equals the previous
temperature minus the corrector stage decrement evaluated at the midpoint
temperature and pressure, with the layer thickness `pPrev - pCur`. -/
theorem adiabatStep_decomp (a b c : ℝ) :
    adiabatStep a b c = a - stageDelta (midTemp a b c) (0.5 * (b + c)) (b - c) := rfl

/-- The source computes adiabatStep with the same per-stage formulas as the
stage* definitions; the predictor value is `predictorT`. -/
theorem predictorT_eq (a b c : ℝ) :
    predictorT a b c = a - stageDelta a b (b - c) := rfl

/-- Layer thickness rewritten without the nested quotient. -/
theorem stageDz_eq (Tx Px dP : ℝ) :
    stageDz Tx Px dP = dP * (287.0 * stageTv Tx Px) / Px / 9.81 := by
  unfold stageDz stageRho
  rw [div_div_eq_mul_div]

/-- The inline saturation pressure is always positive. -/
theorem wv_sat_pos (T : ℝ) : 0 < wv_sat_inline T := by
  unfold wv_sat_inline; positivity

/-- The inline saturation pressure is monotone on the domain right of the
pole at -243.5. -/
theorem wv_sat_mono {a b : ℝ} (ha : -243.5 < a) (hab : a ≤ b) :
    wv_sat_inline a ≤ wv_sat_inline b := by
  unfold wv_sat_inline
  have h1 : (0:ℝ) < 243.5 + a := by linarith
  have h2 : (0:ℝ) < 243.5 + b := by linarith
  have hle : 17.67 * a / (243.5 + a) ≤ 17.67 * b / (243.5 + b) := by
    rw [div_le_div_iff h1 h2]; nlinarith
  have := Real.exp_le_exp.mpr hle
  linarith

/-- Below 0 degrees C the inline saturation pressure is below 6.112 hPa. -/
theorem wv_sat_lt_of_neg {T : ℝ} (h1 : -243.5 < T) (h2 : T < 0) :
    wv_sat_inline T < 6.112 := by
  unfold wv_sat_inline
  have hd : (0:ℝ) < 243.5 + T := by linarith
  have hx : 17.67 * T / (243.5 + T) < 0 := div_neg_of_neg_of_pos (by linarith) hd
  have := Real.exp_lt_one_iff.mpr hx
  linarith [Real.exp_pos (17.67 * T / (243.5 + T))]

/-- Value of the inline saturation pressure at 0 degrees C. -/
theorem wv_sat_zero : wv_sat_inline 0 = 6.112 := by
  unfold wv_sat_inline
  norm_num

/-- Sixteen-fold squaring lower bound for the exponential. -/
theorem exp_lb16 (x : ℝ) (hx : 0 ≤ x) : (1 + x / 16) ^ (16:ℕ) ≤ Real.exp x := by
  have h : Real.exp x = Real.exp (x / 16) ^ (16:ℕ) := by
    rw [← Real.exp_nat_mul]; congr 1; push_cast; ring
  rw [h]
  refine pow_le_pow_left (by positivity) ?_ 16
  have := Real.add_one_le_exp (x / 16)
  linarith

/-- Linear upper bound for the exponential on [0, 1). -/
theorem exp_le_inv_one_sub {y : ℝ} (h0 : 0 ≤ y) (h1 : y < 1) :
    Real.exp y ≤ (1 - y)⁻¹ := by
  have hp : (0:ℝ) < 1 - y := by linarith
  have h2 : 1 - y ≤ Real.exp (-y) := by
    have := Real.add_one_le_exp (-y); linarith
  rw [Real.exp_neg] at h2
  have hepos := Real.exp_pos y
  rw [inv_eq_one_div, le_div_iff hp]
  calc Real.exp y * (1 - y) ≤ Real.exp y * (Real.exp y)⁻¹ :=
        mul_le_mul_of_nonneg_left h2 hepos.le
    _ = 1 := mul_inv_cancel₀ (ne_of_gt hepos)

/-- Sixteen-fold squaring upper bound for the exponential. -/
theorem exp_ub16 (x : ℝ) (h0 : 0 ≤ x) (h1 : x < 16) :
    Real.exp x ≤ ((1 - x / 16)⁻¹) ^ (16:ℕ) := by
  have h : Real.exp x = Real.exp (x / 16) ^ (16:ℕ) := by
    rw [← Real.exp_nat_mul]; congr 1; push_cast; ring
  rw [h]
  exact pow_le_pow_left (Real.exp_pos _).le
    (exp_le_inv_one_sub (by positivity) (by linarith)) 16

/-- Numeric lower bound for the inline saturation pressure at 40 degrees C. -/
theorem es40_lo : (73.3:ℝ) ≤ wv_sat_inline 40 := by
  have hx : 17.67 * (40:ℝ) / (243.5 + 40) = 2 + 139.8 / 283.5 := by norm_num
  have he2 : (7.389056:ℝ) ≤ Real.exp 2 := by
    have h : Real.exp 2 = Real.exp 1 ^ (2:ℕ) := by
      rw [← Real.exp_nat_mul]; norm_num
    rw [h]
    calc (7.389056:ℝ) ≤ 2.7182818283 ^ (2:ℕ) := by norm_num
      _ ≤ Real.exp 1 ^ (2:ℕ) := pow_le_pow_left (by norm_num) Real.exp_one_gt_d9.le 2
  have her : (1.6252:ℝ) ≤ Real.exp (139.8 / 283.5) := by
    calc (1.6252:ℝ) ≤ (1 + (139.8 / 283.5) / 16) ^ (16:ℕ) := by norm_num
      _ ≤ Real.exp (139.8 / 283.5) := exp_lb16 _ (by norm_num)
  unfold wv_sat_inline
  rw [hx, Real.exp_add]
  have key := mul_le_mul he2 her (by norm_num) (le_trans (by norm_num) he2)
  nlinarith [key]

/-- Numeric upper bound for the inline saturation pressure at 40 degrees C. -/
theorem es40_hi : wv_sat_inline 40 ≤ 74.6 := by
  have hx : 17.67 * (40:ℝ) / (243.5 + 40) = 2 + 139.8 / 283.5 := by norm_num
  have he2 : Real.exp 2 ≤ 7.3890561 := by
    have h : Real.exp 2 = Real.exp 1 ^ (2:ℕ) := by
      rw [← Real.exp_nat_mul]; norm_num
    rw [h]
    calc Real.exp 1 ^ (2:ℕ) ≤ 2.7182818286 ^ (2:ℕ) :=
          pow_le_pow_left (Real.exp_pos 1).le Real.exp_one_lt_d9.le 2
      _ ≤ 7.3890561 := by norm_num
  have her : Real.exp (139.8 / 283.5) ≤ 1.6506 := by
    calc Real.exp (139.8 / 283.5) ≤ ((1 - (139.8 / 283.5) / 16)⁻¹) ^ (16:ℕ) :=
          exp_ub16 _ (by norm_num) (by norm_num)
      _ ≤ 1.6506 := by norm_num
  unfold wv_sat_inline
  rw [hx, Real.exp_add]
  have key := mul_le_mul he2 her (Real.exp_pos _).le (by norm_num)
  nlinarith [key]

/-- Numeric upper bound for the inline saturation pressure at 40.1 degrees C. -/
theorem es401_hi : wv_sat_inline 40.1 ≤ 75 := by
  have hx : 17.67 * (40.1:ℝ) / (243.5 + 40.1) = 2 + 141367 / 283600 := by norm_num
  have he2 : Real.exp 2 ≤ 7.3890561 := by
    have h : Real.exp 2 = Real.exp 1 ^ (2:ℕ) := by
      rw [← Real.exp_nat_mul]; norm_num
    rw [h]
    calc Real.exp 1 ^ (2:ℕ) ≤ 2.7182818286 ^ (2:ℕ) :=
          pow_le_pow_left (Real.exp_pos 1).le Real.exp_one_lt_d9.le 2
      _ ≤ 7.3890561 := by norm_num
  have her : Real.exp (141367 / 283600) ≤ 1.6601 := by
    calc Real.exp (141367 / 283600) ≤ ((1 - (141367 / 283600) / 16)⁻¹) ^ (16:ℕ) :=
          exp_ub16 _ (by norm_num) (by norm_num)
      _ ≤ 1.6601 := by norm_num
  unfold wv_sat_inline
  rw [hx, Real.exp_add]
  have key := mul_le_mul he2 her (Real.exp_pos _).le (by norm_num)
  nlinarith [key]

/-- Numeric upper bound for the inline saturation pressure at 20 degrees C. -/
theorem es20_hi : wv_sat_inline 20 ≤ 23.6 := by
  have hx : 17.67 * (20:ℝ) / (243.5 + 20) = 1 + 29 / 85 := by norm_num
  have her : Real.exp (29 / 85) ≤ 1.4161 := by
    calc Real.exp (29 / 85) ≤ ((1 - (29 / 85) / 16)⁻¹) ^ (16:ℕ) :=
          exp_ub16 _ (by norm_num) (by norm_num)
      _ ≤ 1.4161 := by norm_num
  unfold wv_sat_inline
  rw [hx, Real.exp_add]
  have key := mul_le_mul Real.exp_one_lt_d9.le her (Real.exp_pos _).le (by norm_num)
  nlinarith [key]

/-- Positivity of the reversible moist lapse rate for nonnegative mixing
ratio and temperatures in a (generously) physical range. -/
theorem moist_lapserate_pos {w T : ℝ} (hw : 0 ≤ w) (h1 : -273.15 < T) (h2 : T < 1000) :
    0 < moist_lapserate w T := by
  rw [moist_lapserate_eq]
  have hTK : (0:ℝ) < T + 273.15 := by linarith
  have hLv : (0:ℝ) < 2.5e6 - 2500.0 * T := by linarith
  have hA : 0 ≤ (2.5e6 - 2500.0 * T) * w / (287.0 * (T + 273.15)) :=
    div_nonneg (mul_nonneg hLv.le hw) (by linarith)
  apply div_pos (by linarith)
  have h0 : 0 ≤ (2.5e6 - 2500.0 * T) * (287.0 / 461.51) *
      ((2.5e6 - 2500.0 * T) * w / (287.0 * (T + 273.15))) / (T + 273.15) :=
    div_nonneg (mul_nonneg (mul_nonneg hLv.le (by norm_num)) hA) hTK.le
  linarith

/-- A stage decrement is strictly positive away from the singularity with a
strictly positive layer thickness. -/
theorem stageDelta_pos (Tx Px dP : ℝ) (hes : wv_sat_inline Tx < Px) (hPx : 0 < Px)
    (hdP : 0 < dP) (h1 : -273.15 < Tx) (h2 : Tx < 1000) : 0 < stageDelta Tx Px dP := by
  have hesp := wv_sat_pos Tx
  have hw : 0 < stageW Tx Px := by
    unfold stageW
    exact div_pos (by linarith) (by linarith)
  have hG := moist_lapserate_pos hw.le h1 h2
  have hTK : (0:ℝ) < Tx + 273.15 := by linarith
  have hTv : 0 < stageTv Tx Px := by
    unfold stageTv
    have hf : (0:ℝ) < 1 + (1 - 287.0 / 461.51) / (287.0 / 461.51) * stageW Tx Px := by
      linarith
    exact mul_pos hTK hf
  have hDz : 0 < stageDz Tx Px dP := by
    unfold stageDz stageRho
    exact div_pos (div_pos hdP (div_pos hPx (by linarith))) (by norm_num)
  exact mul_pos hG hDz

/-- A stage decrement is nonnegative away from the singularity. -/
theorem stageDelta_nonneg (Tx Px dP : ℝ) (hes : wv_sat_inline Tx < Px) (hPx : 0 < Px)
    (hdP : 0 ≤ dP) (h1 : -273.15 < Tx) (h2 : Tx < 1000) : 0 ≤ stageDelta Tx Px dP := by
  have hesp := wv_sat_pos Tx
  have hw : 0 < stageW Tx Px := by
    unfold stageW
    exact div_pos (by linarith) (by linarith)
  have hG := moist_lapserate_pos hw.le h1 h2
  have hTK : (0:ℝ) < Tx + 273.15 := by linarith
  have hTv : 0 < stageTv Tx Px := by
    unfold stageTv
    have hf : (0:ℝ) < 1 + (1 - 287.0 / 461.51) / (287.0 / 461.51) * stageW Tx Px := by
      linarith
    exact mul_pos hTK hf
  have hDz : 0 ≤ stageDz Tx Px dP := by
    unfold stageDz stageRho
    exact div_nonneg (div_nonneg hdP (div_pos hPx (by linarith)).le) (by norm_num)
  exact mul_nonneg hG.le hDz

/-- Upper bound for a stage decrement away from the singularity, with all
intermediate bounds supplied as rational side conditions. -/
theorem stageDelta_ub (Tx Px dP eH wH AH VH D : ℝ)
    (hes : wv_sat_inline Tx ≤ eH) (hesP : eH < Px) (hdP : 0 ≤ dP)
    (h1 : -273.15 < Tx) (h2 : Tx < 1000)
    (hwH : 287.0 / 461.51 * eH / (Px - eH) ≤ wH)
    (hAH : (2.5e6 - 2500.0 * Tx) * wH / (287.0 * (Tx + 273.15)) ≤ AH)
    (hVH : (Tx + 273.15) * (1 + (1 - 287.0 / 461.51) / (287.0 / 461.51) * wH) ≤ VH)
    (hD : 9.81 * (1 + AH) / 1004 * (dP * (287.0 * VH) / Px / 9.81) ≤ D) :
    stageDelta Tx Px dP ≤ D := by
  have hesp := wv_sat_pos Tx
  have heH : (0:ℝ) < eH := lt_of_lt_of_le hesp hes
  have hPx : (0:ℝ) < Px := heH.trans hesP
  have hTK : (0:ℝ) < Tx + 273.15 := by linarith
  have hLv : (0:ℝ) < 2.5e6 - 2500.0 * Tx := by linarith
  have hd1 : (0:ℝ) < Px - eH := by linarith
  have hd2 : Px - eH ≤ Px - wv_sat_inline Tx := by linarith
  have hw0 : 0 ≤ stageW Tx Px := by
    unfold stageW
    exact div_nonneg (by linarith) (by linarith)
  have hwle : stageW Tx Px ≤ wH := by
    refine le_trans ?_ hwH
    unfold stageW
    exact div_le_div (by positivity) (by linarith) hd1 hd2
  have hwH0 : 0 ≤ wH := le_trans hw0 hwle
  have hA0 : 0 ≤ (2.5e6 - 2500.0 * Tx) * stageW Tx Px / (287.0 * (Tx + 273.15)) :=
    div_nonneg (mul_nonneg hLv.le hw0) (by linarith)
  have hAle : (2.5e6 - 2500.0 * Tx) * stageW Tx Px / (287.0 * (Tx + 273.15)) ≤ AH := by
    refine le_trans ?_ hAH
    exact (div_le_div_right (by linarith)).mpr (mul_le_mul_of_nonneg_left hwle hLv.le)
  have hAH0 : 0 ≤ AH := le_trans hA0 hAle
  have hden_lb : (1004:ℝ) ≤ 1004 + (2.5e6 - 2500.0 * Tx) * (287.0 / 461.51) *
      ((2.5e6 - 2500.0 * Tx) * stageW Tx Px / (287.0 * (Tx + 273.15))) / (Tx + 273.15) := by
    have h0 : 0 ≤ (2.5e6 - 2500.0 * Tx) * (287.0 / 461.51) *
        ((2.5e6 - 2500.0 * Tx) * stageW Tx Px / (287.0 * (Tx + 273.15))) / (Tx + 273.15) :=
      div_nonneg (mul_nonneg (mul_nonneg hLv.le (by norm_num)) hA0) hTK.le
    linarith
  have hGle : moist_lapserate (stageW Tx Px) Tx ≤ 9.81 * (1 + AH) / 1004 := by
    rw [moist_lapserate_eq]
    exact div_le_div (by linarith) (by linarith) (by norm_num) hden_lb
  have hG0 : 0 ≤ moist_lapserate (stageW Tx Px) Tx := (moist_lapserate_pos hw0 h1 h2).le
  have hTv0 : 0 < stageTv Tx Px := by
    unfold stageTv
    have hf : (0:ℝ) < 1 + (1 - 287.0 / 461.51) / (287.0 / 461.51) * stageW Tx Px := by
      linarith
    exact mul_pos hTK hf
  have hTvle : stageTv Tx Px ≤ VH := by
    refine le_trans ?_ hVH
    unfold stageTv
    exact mul_le_mul_of_nonneg_left (by linarith) hTK.le
  have hVH0 : 0 < VH := lt_of_lt_of_le hTv0 hTvle
  have hDz0 : 0 ≤ stageDz Tx Px dP := by
    rw [stageDz_eq]
    exact div_nonneg (div_nonneg (mul_nonneg hdP (by linarith)) hPx.le) (by norm_num)
  have hDzle : stageDz Tx Px dP ≤ dP * (287.0 * VH) / Px / 9.81 := by
    rw [stageDz_eq]
    refine (div_le_div_right (by norm_num)).mpr ?_
    refine (div_le_div_right hPx).mpr ?_
    exact mul_le_mul_of_nonneg_left (by linarith) hdP
  calc stageDelta Tx Px dP = moist_lapserate (stageW Tx Px) Tx * stageDz Tx Px dP := rfl
    _ ≤ 9.81 * (1 + AH) / 1004 * (dP * (287.0 * VH) / Px / 9.81) :=
        mul_le_mul hGle hDzle hDz0 (div_nonneg (by linarith) (by norm_num))
    _ ≤ D := hD

/-- When a layer satisfies stepOK, the full layer step strictly lowers the
temperature. -/
theorem adiabatStep_lt_of_stepOK {Tprev pPrev pCur : ℝ} (h : stepOK Tprev pPrev pCur) :
    adiabatStep Tprev pPrev pCur < Tprev := by
  obtain ⟨h1, h2, h3, h4, h5⟩ := h
  rw [adiabatStep_decomp]
  have hPb : (0:ℝ) < 0.5 * (pPrev + pCur) := by linarith
  have := stageDelta_pos _ _ _ h5 hPb (by linarith : (0:ℝ) < pPrev - pCur) h3 h4
  linarith

/-- A run along which every layer satisfies stepOK yields a profile that is
non-increasing. -/
theorem chain_of_goodRun : ∀ (L : List ℝ) (T0 p0 : ℝ), goodRun T0 p0 L →
    List.Chain' (fun a b => b ≤ a) (T0 :: integrateFrom T0 p0 L)
  | [], _, _, _ => by simp [integrateFrom]
  | q :: rest, T0, p0, h => by
      obtain ⟨h1, h2⟩ := h
      have ih := chain_of_goodRun rest (adiabatStep T0 p0 q) q h2
      simp only [integrateFrom]
      exact List.chain'_cons.mpr ⟨(adiabatStep_lt_of_stepOK h1).le, ih⟩

/-- chain_of_goodRun phrased over profileOn. -/
theorem chain_profileOn (T0 : ℝ) :
    ∀ L, goodColumn T0 L → List.Chain' (fun a b => b ≤ a) (profileOn T0 L)
  | [], _ => by simp [profileOn]
  | q0 :: qrest, hg => chain_of_goodRun qrest T0 q0 hg

/-- Two-sided bound on the predictor stage decrement of the layer from
51 hPa to 50 hPa starting at 40 degrees C: the layer is past the
mixing-ratio singularity (saturation pressure exceeds 51 hPa), every
intermediate sign flips, and the decrement lands in [-0.2, 0). -/
theorem pred_delta_bounds : (-0.2:ℝ) ≤ stageDelta 40 51 1 ∧ stageDelta 40 51 1 < 0 := by
  have hesL := es40_lo
  have hesH := es40_hi
  have hd : (51:ℝ) - wv_sat_inline 40 < 0 := by linarith
  have hw_eq : stageW 40 51 =
      287.0 / 461.51 * wv_sat_inline 40 / (51 - wv_sat_inline 40) := rfl
  have hwU : stageW 40 51 ≤ -1.93 := by
    rw [hw_eq, div_le_iff_of_neg hd]; linarith
  have hwL : (-2.09:ℝ) ≤ stageW 40 51 := by
    rw [hw_eq, le_div_iff_of_neg hd]; linarith
  have hTv_eq : stageTv 40 51 = ((40:ℝ) + 273.15) *
      (1 + (1 - 287.0 / 461.51) / (287.0 / 461.51) * stageW 40 51) := rfl
  have hTvU : stageTv 40 51 ≤ -54.3 := by rw [hTv_eq]; ring_nf; nlinarith [hwU]
  have hTvL : (-84.9:ℝ) ≤ stageTv 40 51 := by rw [hTv_eq]; ring_nf; nlinarith [hwL]
  have hDzU : stageDz 40 51 1 < 0 := by
    rw [stageDz_eq]
    exact div_neg_of_neg_of_pos
      (div_neg_of_neg_of_pos (by linarith) (by norm_num)) (by norm_num)
  have hDzL : (-48.8:ℝ) ≤ stageDz 40 51 1 := by
    rw [stageDz_eq]; ring_nf; nlinarith [hTvL]
  have hAU : (2.5e6 - 2500.0 * (40:ℝ)) * stageW 40 51 /
      (287.0 * ((40:ℝ) + 273.15)) ≤ -51.5 := by
    rw [div_le_iff (by norm_num : (0:ℝ) < 287.0 * ((40:ℝ) + 273.15))]
    ring_nf
    nlinarith [hwU]
  have hAL : (-55.9:ℝ) ≤ (2.5e6 - 2500.0 * (40:ℝ)) * stageW 40 51 /
      (287.0 * ((40:ℝ) + 273.15)) := by
    rw [le_div_iff (by norm_num : (0:ℝ) < 287.0 * ((40:ℝ) + 273.15))]
    ring_nf
    nlinarith [hwL]
  have hdenU : (1004:ℝ) + (2.5e6 - 2500.0 * (40:ℝ)) * (287.0 / 461.51) *
      ((2.5e6 - 2500.0 * (40:ℝ)) * stageW 40 51 / (287.0 * ((40:ℝ) + 273.15))) /
        ((40:ℝ) + 273.15) ≤ -244000 := by
    have hAU2 := hAU
    ring_nf at hAU2 ⊢
    linarith
  have hden_neg : (1004:ℝ) + (2.5e6 - 2500.0 * (40:ℝ)) * (287.0 / 461.51) *
      ((2.5e6 - 2500.0 * (40:ℝ)) * stageW 40 51 / (287.0 * ((40:ℝ) + 273.15))) /
        ((40:ℝ) + 273.15) < 0 := by linarith
  have hG_eq := moist_lapserate_eq (stageW 40 51) 40
  have hGU : moist_lapserate (stageW 40 51) 40 ≤ 0.00221 := by
    rw [hG_eq, div_le_iff_of_neg hden_neg]
    have hAL2 := hAL
    ring_nf at hAL2 ⊢
    linarith
  have hGL : (0.0018:ℝ) ≤ moist_lapserate (stageW 40 51) 40 := by
    rw [hG_eq, le_div_iff_of_neg hden_neg]
    have hAU2 := hAU
    ring_nf at hAU2 ⊢
    linarith
  have hsd : stageDelta 40 51 1 =
      moist_lapserate (stageW 40 51) 40 * stageDz 40 51 1 := rfl
  constructor
  · rw [hsd]
    nlinarith [mul_nonneg (sub_nonneg.mpr hGU) (neg_nonneg.mpr hDzU.le), hDzL, hGU]
  · rw [hsd]
    exact mul_neg_of_pos_of_neg (lt_of_lt_of_le (by norm_num) hGL) hDzU

/-- The corrector stage decrement of the same layer is strictly negative for
any midpoint temperature between 40 and 40.1 degrees C: the midpoint
pressure 50.5 hPa is far below the saturation pressure there, so the final
corrector step warms the parcel instead of cooling it. -/
theorem corr_delta_neg (Tb : ℝ) (h1 : 40 ≤ Tb) (h2 : Tb ≤ 40.1) :
    stageDelta Tb 50.5 1 < 0 := by
  have hesL : (73.3:ℝ) ≤ wv_sat_inline Tb :=
    le_trans es40_lo (wv_sat_mono (by norm_num) h1)
  have hesH : wv_sat_inline Tb ≤ 75 :=
    le_trans (wv_sat_mono (by linarith) h2) es401_hi
  have hd : (50.5:ℝ) - wv_sat_inline Tb < 0 := by linarith
  have hw_eq : stageW Tb 50.5 =
      287.0 / 461.51 * wv_sat_inline Tb / (50.5 - wv_sat_inline Tb) := rfl
  have hwU : stageW Tb 50.5 ≤ -1.85 := by
    rw [hw_eq, div_le_iff_of_neg hd]; linarith
  have hTK1 : (313.15:ℝ) ≤ Tb + 273.15 := by linarith
  have hTK2 : Tb + 273.15 ≤ 313.25 := by linarith
  have hTv_eq : stageTv Tb 50.5 = (Tb + 273.15) *
      (1 + (1 - 287.0 / 461.51) / (287.0 / 461.51) * stageW Tb 50.5) := rfl
  have hfneg : 1 + (1 - 287.0 / 461.51) / (287.0 / 461.51) * stageW Tb 50.5 ≤ -0.124 := by
    ring_nf
    ring_nf at hwU
    linarith
  have hTvU : stageTv Tb 50.5 < 0 := by
    rw [hTv_eq]
    exact mul_neg_of_pos_of_neg (by linarith) (by linarith)
  have hDzneg : stageDz Tb 50.5 1 < 0 := by
    rw [stageDz_eq]
    exact div_neg_of_neg_of_pos
      (div_neg_of_neg_of_pos (by linarith) (by norm_num)) (by norm_num)
  have hLvL : (2399750:ℝ) ≤ 2.5e6 - 2500.0 * Tb := by linarith
  have hLvH : 2.5e6 - 2500.0 * Tb ≤ 2400000 := by linarith
  have hAU : (2.5e6 - 2500.0 * Tb) * stageW Tb 50.5 / (287.0 * (Tb + 273.15)) ≤ -49 := by
    rw [div_le_iff (by linarith : (0:ℝ) < 287.0 * (Tb + 273.15))]
    nlinarith [mul_nonneg (sub_nonneg.mpr hLvL)
      (by linarith : (0:ℝ) ≤ -1.85 - stageW Tb 50.5)]
  have hterm : (2.5e6 - 2500.0 * Tb) * (287.0 / 461.51) *
      ((2.5e6 - 2500.0 * Tb) * stageW Tb 50.5 / (287.0 * (Tb + 273.15))) /
        (Tb + 273.15) ≤ -1100 := by
    rw [div_le_iff (by linarith : (0:ℝ) < Tb + 273.15)]
    nlinarith [mul_nonneg (sub_nonneg.mpr hLvL)
      (by linarith : (0:ℝ) ≤ -49 -
        (2.5e6 - 2500.0 * Tb) * stageW Tb 50.5 / (287.0 * (Tb + 273.15))), hAU, hTK2]
  have hden2 : 1004 + (2.5e6 - 2500.0 * Tb) * (287.0 / 461.51) *
      ((2.5e6 - 2500.0 * Tb) * stageW Tb 50.5 / (287.0 * (Tb + 273.15))) /
        (Tb + 273.15) < 0 := by linarith
  have hnum2 : 9.81 * (1 + (2.5e6 - 2500.0 * Tb) * stageW Tb 50.5 /
      (287.0 * (Tb + 273.15))) < 0 := by linarith
  have hGpos : 0 < moist_lapserate (stageW Tb 50.5) Tb := by
    rw [moist_lapserate_eq]
    exact div_pos_of_neg_of_neg hnum2 hden2
  have hsd : stageDelta Tb 50.5 1 =
      moist_lapserate (stageW Tb 50.5) Tb * stageDz Tb 50.5 1 := rfl
  rw [hsd]
  exact mul_neg_of_pos_of_neg hGpos hDzneg

/-- The full layer step from 51 hPa to 50 hPa at 40 degrees C increases the
temperature: the deep mixing-ratio singularity makes the corrector's
Gamma * Dz product negative. -/
theorem cex_step : (40:ℝ) < adiabatStep 40 51 50 := by
  obtain ⟨hL, hU⟩ := pred_delta_bounds
  have hmid_eq : midTemp 40 51 50 =
      0.5 * (40 + (40 - stageDelta 40 51 ((51:ℝ) - 50))) := rfl
  rw [show (51:ℝ) - 50 = 1 by norm_num] at hmid_eq
  have hm1 : (40:ℝ) ≤ midTemp 40 51 50 := by rw [hmid_eq]; linarith
  have hm2 : midTemp 40 51 50 ≤ 40.1 := by rw [hmid_eq]; linarith
  have hneg := corr_delta_neg (midTemp 40 51 50) hm1 hm2
  have hstep := adiabatStep_decomp 40 51 50
  rw [show (0.5:ℝ) * (51 + 50) = 50.5 by norm_num,
      show (51:ℝ) - 50 = 1 by norm_num] at hstep
  rw [hstep]
  linarith

/-- The layer from 1000 hPa to 990 hPa starting at -20 degrees C satisfies
stepOK: a concrete, saturation-free layer. -/
theorem stepOK_m20 : stepOK (-20) 1000 990 := by
  have hes : wv_sat_inline (-20) ≤ 6.112 :=
    (wv_sat_lt_of_neg (by norm_num) (by norm_num)).le
  have hub : stageDelta (-20) 1000 10 ≤ 1 :=
    stageDelta_ub (-20) 1000 10 6.112 0.0039 0.14 254 1 hes (by norm_num)
      (by norm_num) (by norm_num) (by norm_num) (by norm_num) (by norm_num)
      (by norm_num) (by norm_num)
  have hnn : 0 ≤ stageDelta (-20) 1000 10 :=
    stageDelta_nonneg (-20) 1000 10 (lt_of_le_of_lt hes (by norm_num)) (by norm_num)
      (by norm_num) (by norm_num) (by norm_num)
  have hmid_eq : midTemp (-20) 1000 990 =
      0.5 * ((-20) + ((-20) - stageDelta (-20) 1000 ((1000:ℝ) - 990))) := rfl
  rw [show (1000:ℝ) - 990 = 10 by norm_num] at hmid_eq
  have hm1 : (-20.5:ℝ) ≤ midTemp (-20) 1000 990 := by rw [hmid_eq]; linarith
  have hm2 : midTemp (-20) 1000 990 ≤ -20 := by rw [hmid_eq]; linarith
  refine ⟨by norm_num, by norm_num, by linarith, by linarith, ?_⟩
  have hlt : wv_sat_inline (midTemp (-20) 1000 990) < 6.112 :=
    wv_sat_lt_of_neg (by linarith) (by linarith)
  rw [show (0.5:ℝ) * (1000 + 990) = 995 by norm_num]
  linarith

/-- The layer from 1000 hPa to 900 hPa starting at 20 degrees C satisfies
stepOK. -/
theorem stepOK_20 : stepOK 20 1000 900 := by
  have hes : wv_sat_inline 20 ≤ 23.6 := es20_hi
  have hub : stageDelta 20 1000 100 ≤ 13 :=
    stageDelta_ub 20 1000 100 23.6 0.0151 0.44 296 13 hes (by norm_num)
      (by norm_num) (by norm_num) (by norm_num) (by norm_num) (by norm_num)
      (by norm_num) (by norm_num)
  have hnn : 0 ≤ stageDelta 20 1000 100 :=
    stageDelta_nonneg 20 1000 100 (lt_of_le_of_lt hes (by norm_num)) (by norm_num)
      (by norm_num) (by norm_num) (by norm_num)
  have hmid_eq : midTemp 20 1000 900 =
      0.5 * (20 + (20 - stageDelta 20 1000 ((1000:ℝ) - 900))) := rfl
  rw [show (1000:ℝ) - 900 = 100 by norm_num] at hmid_eq
  have hm1 : (13.5:ℝ) ≤ midTemp 20 1000 900 := by rw [hmid_eq]; linarith
  have hm2 : midTemp 20 1000 900 ≤ 20 := by rw [hmid_eq]; linarith
  refine ⟨by norm_num, by norm_num, by linarith, by linarith, ?_⟩
  have hmono : wv_sat_inline (midTemp 20 1000 900) ≤ wv_sat_inline 20 :=
    wv_sat_mono (by linarith) hm2
  rw [show (0.5:ℝ) * (1000 + 900) = 950 by norm_num]
  linarith

/-- integrateFrom produces one temperature per remaining pressure level. -/
theorem integrateFrom_length : ∀ (L : List ℝ) (T p : ℝ),
    (integrateFrom T p L).length = L.length
  | [], _, _ => rfl
  | q :: rest, T, p => by
      simp only [integrateFrom, List.length_cons]
      rw [integrateFrom_length rest]

/-- The profile has the same length as the column it is built over. -/
theorem profileOn_length : ∀ (L : List ℝ) (T : ℝ), (profileOn T L).length = L.length
  | [], _ => rfl
  | q0 :: qrest, T => by
      simp only [profileOn, List.length_cons]
      rw [integrateFrom_length qrest]

/-- Direction normalisation preserves the column length. -/
theorem internalColumn_length (P : List ℝ) : (internalColumn P).length = P.length := by
  match P with
  | [] => rfl
  | [x] => rfl
  | p0 :: p1 :: rest =>
    show (if p0 < p1 then (p0 :: p1 :: rest).reverse else p0 :: p1 :: rest).length =
      (p0 :: p1 :: rest).length
    by_cases h : p0 < p1
    · rw [if_pos h, List.length_reverse]
    · rw [if_neg h]

/-- Direction normalisation of a column of length at least two never yields
the empty list. -/
theorem internalColumn_ne_nil (p0 p1 : ℝ) (rest : List ℝ) :
    internalColumn (p0 :: p1 :: rest) ≠ [] := by
  intro hc
  have hl := internalColumn_length (p0 :: p1 :: rest)
  rw [hc] at hl
  simp at hl

/-- Direction normalisation when the column starts descending. -/
theorem internalColumn_no_rev {p0 p1 : ℝ} (rest : List ℝ) (h : ¬ p0 < p1) :
    internalColumn (p0 :: p1 :: rest) = p0 :: p1 :: rest := by
  show (if p0 < p1 then (p0 :: p1 :: rest).reverse else p0 :: p1 :: rest) = p0 :: p1 :: rest
  rw [if_neg h]

/-- Direction normalisation when the column starts ascending. -/
theorem internalColumn_rev {p0 p1 : ℝ} (rest : List ℝ) (h : p0 < p1) :
    internalColumn (p0 :: p1 :: rest) = (p0 :: p1 :: rest).reverse := by
  show (if p0 < p1 then (p0 :: p1 :: rest).reverse else p0 :: p1 :: rest) =
    (p0 :: p1 :: rest).reverse
  rw [if_pos h]

/-- calc_moist_adiabat on a column of length at least 2 always returns ok
with the profile over the internal-order column. -/
theorem calc_eq_ok (Tref p0 p1 : ℝ) (rest : List ℝ) :
    calc_moist_adiabat Tref (p0 :: p1 :: rest) =
      .ok (profileOn Tref (internalColumn (p0 :: p1 :: rest))) := rfl

/-- Entry i+1 of a profile is the layer step applied to entry i and the
pressure pair at i, i+1. -/
theorem integrateFrom_getD : ∀ (L : List ℝ) (T0 p0 : ℝ) (i : ℕ),
    i + 1 < (T0 :: integrateFrom T0 p0 L).length →
    (T0 :: integrateFrom T0 p0 L).getD (i + 1) 0 =
      adiabatStep ((T0 :: integrateFrom T0 p0 L).getD i 0)
        ((p0 :: L).getD i 0) ((p0 :: L).getD (i + 1) 0)
  | [], T0, p0, i, h => by simp [integrateFrom] at h
  | q :: rest, T0, p0, 0, _ => by
      simp [integrateFrom, List.getD_cons_zero, List.getD_cons_succ]
  | q :: rest, T0, p0, i + 1, h => by
      have hlen : i + 1 <
          (adiabatStep T0 p0 q :: integrateFrom (adiabatStep T0 p0 q) q rest).length := by
        simp only [integrateFrom, List.length_cons] at h ⊢
        omega
      have ih := integrateFrom_getD rest (adiabatStep T0 p0 q) q i hlen
      simpa only [integrateFrom, List.getD_cons_succ] using ih

/-- The source-derived layer step coincides with the step written from the
specification's §4.3 predictor-corrector description. -/
theorem adiabatStep_eq_spec (a b c : ℝ) :
    adiabatStep a b c = spec_corrected_temp a b c := rfl

/-- Reversing a strictly descending column of length at least 2 yields a
column whose first two elements are strictly ascending. -/
theorem rev_head_lt : ∀ (rest : List ℝ) (p0 p1 : ℝ),
    List.Chain' (fun a b => b < a) (p0 :: p1 :: rest) →
    ∃ q0 q1 qrest, (p0 :: p1 :: rest).reverse = q0 :: q1 :: qrest ∧ q0 < q1
  | [], p0, p1, h => ⟨p1, p0, [], by simp, (List.chain'_cons.mp h).1⟩
  | r :: rs, p0, p1, h => by
      obtain ⟨q0, q1, qrest, hq, hlt⟩ :=
        rev_head_lt rs p1 r (List.chain'_cons.mp h).2
      exact ⟨q0, q1, qrest ++ [p0], by rw [List.reverse_cons, hq]; simp, hlt⟩

/-- The unfolded closed form of wv_satpressure_mk. -/
theorem wv_satpressure_mk_eq (T : ℝ) : wv_satpressure_mk T =
    Real.exp (54.842763 - 6763.22 / (T + 273.15) - 4.21 * Real.log (T + 273.15) +
      0.000367 * (T + 273.15) +
      Real.tanh (0.0415 * (T + 273.15 - 218.8)) *
        (53.878 - 1331.22 / (T + 273.15) - 9.44523 * Real.log (T + 273.15) +
          0.014025 * (T + 273.15))) / 100 := rfl

/-- The concrete profile for Tref = 20, P = [1000, 900]. -/
theorem calc_ex1 :
    calc_moist_adiabat 20 [1000, 900] = .ok [20, adiabatStep 20 1000 900] := by
  rw [calc_eq_ok, internalColumn_no_rev [] (by norm_num : ¬(1000:ℝ) < 900)]
  rfl

/-- Claim C6: a pressure column with fewer than 2 levels is rejected with an
error (the source raises IndexError at `T[0] = Tref` or at the access `P[1]`)
before any integration is performed; no profile is produced. -/
theorem claim_C6 (Tref : ℝ) (P : List ℝ) (h : P.length < 2) :
    calc_moist_adiabat Tref P = .error "IndexError" := by
  match P with
  | [] => rfl
  | [_] => rfl
  | a :: b :: t => simp [List.length_cons] at h; omega

/-- Witness for claim C6 at the spec's concrete error scenario `P = [500.0]`. -/
theorem claim_C6_witness :
    ([(500.0 : ℝ)].length < 2) ∧
      calc_moist_adiabat 25 [(500.0 : ℝ)] = .error "IndexError" :=
  ⟨by simp, claim_C6 25 [(500.0 : ℝ)] (by simp)⟩

/-- Claim C10: the direction normalisation of calc_moist_adiabat depends only
on the first two elements of the column - the column is reversed internally
iff `P[0] < P[1]` - and every column of length at least 2, monotonic past its
first two elements or not, is processed to completion with an ok result and
no error. -/
theorem claim_C10 (Tref p0 p1 : ℝ) (rest : List ℝ) :
    calc_moist_adiabat Tref (p0 :: p1 :: rest) =
      .ok (profileOn Tref
        (if p0 < p1 then (p0 :: p1 :: rest).reverse else p0 :: p1 :: rest)) := rfl

/-- Claim C3: moist_lapserate and moist_pseudo_lapserate compute exactly the
closed forms of the specification, with the constants g = 9.81, Cp = 1004,
Cv = 717, Rd = 287.0, Rv = 461.51, epsilon = Rd/Rv, TK = T + 273.15,
Lv = 2.5e6 - 2500.0*T and A = Lv*w/(Rd*TK).  Both are pure functions of
their arguments. -/
theorem claim_C3 (w T : ℝ) :
    moist_lapserate w T =
      9.81 * (1 + (2.5e6 - 2500.0 * T) * w / (287.0 * (T + 273.15))) /
        (1004 + (2.5e6 - 2500.0 * T) * (287.0 / 461.51) *
          ((2.5e6 - 2500.0 * T) * w / (287.0 * (T + 273.15))) / (T + 273.15)) ∧
    moist_pseudo_lapserate w T =
      9.81 * ((1 + w) * (1 + (2.5e6 - 2500.0 * T) * w / (287.0 * (T + 273.15))) /
        (1004 + w * 717 + (2.5e6 - 2500.0 * T) * (287.0 / 461.51 + w) *
          ((2.5e6 - 2500.0 * T) * w / (287.0 * (T + 273.15))) / (T + 273.15))) :=
  ⟨rfl, rfl⟩

/-- Claim C1: for every profile returned by calc_moist_adiabat, each entry
T[n] (internal descending-pressure order) is obtained from T[n-1] by the
two-stage predictor-corrector of the specification: a provisional value from
bottom-of-layer saturation pressure, mixing ratio, virtual temperature,
density and thickness, overwritten by the corrector recomputed at
Tbar = 0.5*(T[n-1]+T[n]) and Pbar = 0.5*(P[n-1]+P[n]) with the same layer
thickness dP[n-1], using the reversible moist_lapserate in both stages
(spec_corrected_temp is written from the spec's §4.3 text). -/
theorem claim_C1 (Tref : ℝ) (P prof : List ℝ)
    (h : calc_moist_adiabat Tref P = .ok prof) (i : ℕ) (hi : i + 1 < prof.length) :
    prof.getD (i + 1) 0 =
      spec_corrected_temp (prof.getD i 0) ((internalColumn P).getD i 0)
        ((internalColumn P).getD (i + 1) 0) := by
  match P with
  | [] => exact absurd h (by simp [calc_moist_adiabat])
  | [x] => exact absurd h (by simp [calc_moist_adiabat])
  | p0 :: p1 :: rest =>
    have hprof : prof = profileOn Tref (internalColumn (p0 :: p1 :: rest)) := by
      simp only [calc_moist_adiabat] at h
      exact (Except.ok.inj h).symm
    subst hprof
    obtain ⟨q0, qrest, hu⟩ :=
      List.exists_cons_of_ne_nil (internalColumn_ne_nil p0 p1 rest)
    rw [hu] at hi ⊢
    simp only [profileOn] at hi ⊢
    rw [← adiabatStep_eq_spec]
    exact integrateFrom_getD qrest Tref q0 i hi

/-- Witness for claim C1 at Tref = 20, P = [1000, 900], layer i = 0. -/
theorem claim_C1_witness :
    calc_moist_adiabat 20 [1000, 900] = .ok [20, adiabatStep 20 1000 900] ∧
    ([20, adiabatStep 20 1000 900] : List ℝ).getD 1 0 =
      spec_corrected_temp (([20, adiabatStep 20 1000 900] : List ℝ).getD 0 0)
        ((internalColumn [1000, 900]).getD 0 0) ((internalColumn [1000, 900]).getD 1 0) :=
  ⟨calc_ex1, claim_C1 20 [1000, 900] [20, adiabatStep 20 1000 900] calc_ex1 0 (by simp)⟩

/-- Claim C4: the first element of the returned profile (index 0 in the
internal ordering) is exactly the reference temperature; in this functional
embedding it is seeded once and, the remaining entries being produced by the
forward recursion, it is never overwritten. -/
theorem claim_C4 (Tref : ℝ) (P prof : List ℝ)
    (h : calc_moist_adiabat Tref P = .ok prof) : prof.head? = some Tref := by
  match P with
  | [] => exact absurd h (by simp [calc_moist_adiabat])
  | [x] => exact absurd h (by simp [calc_moist_adiabat])
  | p0 :: p1 :: rest =>
    have hprof : prof = profileOn Tref (internalColumn (p0 :: p1 :: rest)) := by
      simp only [calc_moist_adiabat] at h
      exact (Except.ok.inj h).symm
    subst hprof
    obtain ⟨q0, qrest, hu⟩ :=
      List.exists_cons_of_ne_nil (internalColumn_ne_nil p0 p1 rest)
    rw [hu]
    rfl

/-- Witness for claim C4 at Tref = 20, P = [1000, 900]. -/
theorem claim_C4_witness :
    calc_moist_adiabat 20 [1000, 900] = .ok [20, adiabatStep 20 1000 900] ∧
    ([20, adiabatStep 20 1000 900] : List ℝ).head? = some 20 :=
  ⟨calc_ex1, claim_C4 20 [1000, 900] [20, adiabatStep 20 1000 900] calc_ex1⟩

/-- Claim C7: for nonnegative mixing ratio and any physically plausible
temperature (here any T strictly between -273.15 С and 1000 C, a superset
of atmospheric temperatures), the reversible moist lapse rate is strictly
positive. -/
theorem claim_C7 (w T : ℝ) (hw : 0 ≤ w) (h1 : -273.15 < T) (h2 : T < 1000) :
    0 < moist_lapserate w T :=
  moist_lapserate_pos hw h1 h2

/-- Witness for claim C7 at w = 0.01, T = 20. -/
theorem claim_C7_witness :
    (0:ℝ) ≤ 0.01 ∧ (-273.15:ℝ) < 20 ∧ (20:ℝ) < 1000 ∧
      0 < moist_lapserate 0.01 20 :=
  ⟨by norm_num, by norm_num, by norm_num,
    claim_C7 0.01 20 (by norm_num) (by norm_num) (by norm_num)⟩

/-- Counterexample to claim C5 as stated: at Tref = 0 C the saturation
pressure is 6.112 hPa, so the first layer of P = [6, 5] has its pressure at
or below saturation (non-positive mixing-ratio denominator), yet
calc_moist_adiabat signals no error: it returns an ok profile. -/
theorem claim_C5_counterexample :
    (6:ℝ) ≤ wv_sat_inline 0 ∧
    calc_moist_adiabat 0 [6, 5] = .ok [0, adiabatStep 0 6 5] := by
  constructor
  · rw [wv_sat_zero]; norm_num
  · rw [calc_eq_ok, internalColumn_no_rev [] (by norm_num : ¬(6:ℝ) < 5)]
    rfl

/-- Claim C5 amended: calc_moist_adiabat performs no singularity or
finiteness check whatsoever; even when a layer's pressure is at or below the
saturation vapor pressure of its temperature, the integrator still returns
ok with a (possibly unphysical) profile, and never signals a domain error. -/
theorem claim_C5 (Tref p0 p1 : ℝ) (rest : List ℝ)
    (hsing : p0 ≤ wv_sat_inline Tref) :
    calc_moist_adiabat Tref (p0 :: p1 :: rest) =
      .ok (profileOn Tref (internalColumn (p0 :: p1 :: rest))) :=
  calc_eq_ok Tref p0 p1 rest

/-- Witness for (amended) claim C5 at Tref = 0, P = [6, 5]. -/
theorem claim_C5_witness :
    (6:ℝ) ≤ wv_sat_inline 0 ∧
    calc_moist_adiabat 0 [6, 5] = .ok (profileOn 0 (internalColumn [6, 5])) := by
  have h6 : (6:ℝ) ≤ wv_sat_inline 0 := by rw [wv_sat_zero]; norm_num
  exact ⟨h6, claim_C5 0 6 5 [] h6⟩

/-- Counterexample to claim C2 as stated: the integrator does not un-reverse
its output.  Running on the ascending column [900, 1000] returns the very
same array as on [1000, 900] - head 20 = Tref, second entry the 900-hPa
value - instead of the un-reversed [T(900 hPa), 20] that index-for-index
alignment with the caller's ordering would require; the two entries differ. -/
theorem claim_C2_counterexample :
    calc_moist_adiabat 20 [900, 1000] = calc_moist_adiabat 20 [1000, 900] ∧
    calc_moist_adiabat 20 [900, 1000] = .ok [20, adiabatStep 20 1000 900] ∧
    adiabatStep 20 1000 900 ≠ 20 := by
  have hrev : calc_moist_adiabat 20 [900, 1000] = .ok [20, adiabatStep 20 1000 900] := by
    rw [calc_eq_ok, internalColumn_rev [] (by norm_num : (900:ℝ) < 1000)]
    rfl
  have hne : adiabatStep 20 1000 900 ≠ 20 :=
    ne_of_lt (adiabatStep_lt_of_stepOK stepOK_20)
  exact ⟨hrev.trans calc_ex1.symm, hrev, hne⟩

/-- Claim C2 amended: when the input column ascends, the integrator works on
a pressure-reversed internal copy but returns the profile in internal
(descending-pressure) order without un-reversing, so running on the
reversed copy of a strictly descending column returns the identical array -
element for element, not per caller index at each physical level. -/
theorem claim_C2 (Tref : ℝ) (P : List ℝ) (hlen : 2 ≤ P.length)
    (hdesc : List.Chain' (fun a b => b < a) P) :
    calc_moist_adiabat Tref P.reverse = calc_moist_adiabat Tref P := by
  match P with
  | [] => simp at hlen
  | [x] => simp at hlen
  | p0 :: p1 :: rest =>
    have h01 : p1 < p0 := (List.chain'_cons.mp hdesc).1
    obtain ⟨q0, q1, qrest, hq, hlt⟩ := rev_head_lt rest p0 p1 hdesc
    rw [hq]
    rw [calc_eq_ok Tref q0 q1 qrest, calc_eq_ok Tref p0 p1 rest]
    rw [internalColumn_rev qrest hlt, internalColumn_no_rev rest (not_lt.mpr h01.le)]
    rw [← hq, List.reverse_reverse]

/-- Witness for (amended) claim C2 at Tref = 20, P = [1000, 900]. -/
theorem claim_C2_witness :
    calc_moist_adiabat 20 ([1000, 900] : List ℝ).reverse =
      calc_moist_adiabat 20 [1000, 900] :=
  claim_C2 20 [1000, 900] (by simp)
    (List.chain'_cons.mpr ⟨by norm_num, List.chain'_singleton _⟩)

/-- Counterexample to claim C8 as stated: Tref = 40 C (within [-60, 40]) and
the strictly decreasing column [51, 50] (within [50, 1050] hPa) make the
profile increase: the pressure is below the saturation pressure at 40 C
(about 73.9 hPa), and the resulting sign flips make the corrector step warm
the parcel, so T[1] > T[0]. -/
theorem claim_C8_counterexample :
    ((-60:ℝ) ≤ 40 ∧ (40:ℝ) ≤ 40 ∧ (50:ℝ) ≤ 51 ∧ (51:ℝ) ≤ 1050 ∧ (50:ℝ) < 51) ∧
    calc_moist_adiabat 40 [51, 50] = .ok [40, adiabatStep 40 51 50] ∧
    40 < adiabatStep 40 51 50 := by
  refine ⟨by norm_num, ?_, cex_step⟩
  rw [calc_eq_ok, internalColumn_no_rev [] (by norm_num : ¬(51:ℝ) < 50)]
  rfl

/-- Claim C8 amended: the profile returned by calc_moist_adiabat is
non-increasing along the internal (descending-pressure) order provided
every layer is positive-pressure, strictly descending, and saturation-free
at the corrector midpoint (stepOK); columns inside the claimed numeric
ranges alone can violate monotonicity (see the counterexample). -/
theorem claim_C8 (Tref : ℝ) (P prof : List ℝ)
    (h : calc_moist_adiabat Tref P = .ok prof)
    (hg : goodColumn Tref (internalColumn P)) :
    List.Chain' (fun a b => b ≤ a) prof := by
  match P with
  | [] => exact absurd h (by simp [calc_moist_adiabat])
  | [x] => exact absurd h (by simp [calc_moist_adiabat])
  | p0 :: p1 :: rest =>
    have hprof : prof = profileOn Tref (internalColumn (p0 :: p1 :: rest)) := by
      simp only [calc_moist_adiabat] at h
      exact (Except.ok.inj h).symm
    subst hprof
    exact chain_profileOn Tref _ hg

/-- Witness for (amended) claim C8 at Tref = -20, P = [1000, 990]. -/
theorem claim_C8_witness :
    calc_moist_adiabat (-20) [1000, 990] = .ok [-20, adiabatStep (-20) 1000 990] ∧
    goodColumn (-20) (internalColumn [1000, 990]) ∧
    List.Chain' (fun a b => b ≤ a) [-20, adiabatStep (-20) 1000 990] := by
  have hcalc : calc_moist_adiabat (-20) [1000, 990] =
      .ok [-20, adiabatStep (-20) 1000 990] := by
    rw [calc_eq_ok, internalColumn_no_rev [] (by norm_num : ¬(1000:ℝ) < 990)]
    rfl
  have hg : goodColumn (-20) (internalColumn [1000, 990]) := by
    rw [internalColumn_no_rev [] (by norm_num : ¬(1000:ℝ) < 990)]
    exact ⟨stepOK_m20, trivial⟩
  exact ⟨hcalc, hg, claim_C8 (-20) [1000, 990] _ hcalc hg⟩

/-- Claim C9: the saturation-pressure expression inlined in
calc_moist_adiabat is extensionally equal to the repository's general
vapor_pressure (same constants 6.112, 17.67, 243.5, denominators commuted),
and is not extensionally the Murphy-Koop formula wv_satpressure_mk defined
alongside it: the two differ, e.g., at T = exp 14 - 273.15. -/
theorem claim_C9 :
    (∀ t : ℝ, wv_sat_inline t = vapor_pressure t) ∧
    wv_sat_inline (Real.exp 14 - 273.15) ≠ wv_satpressure_mk (Real.exp 14 - 273.15) := by
  constructor
  · intro t
    unfold wv_sat_inline vapor_pressure sat_pressure_0c
    rw [add_comm 243.5 t]
  · have hTK : Real.exp 14 - 273.15 + 273.15 = Real.exp 14 := by ring
    have he14 : (1100000:ℝ) ≤ Real.exp 14 := by
      have h : Real.exp 14 = Real.exp 1 ^ (14:ℕ) := by
        rw [← Real.exp_nat_mul]; norm_num
      rw [h]
      calc (1100000:ℝ) ≤ 2.7182818283 ^ (14:ℕ) := by norm_num
        _ ≤ Real.exp 1 ^ (14:ℕ) := pow_le_pow_left (by norm_num) Real.exp_one_gt_d9.le 14
    have hlog : Real.log (Real.exp 14) = 14 := Real.log_exp 14
    have htanh : 0 ≤ Real.tanh (0.0415 * (Real.exp 14 - 218.8)) := by
      rw [Real.tanh_eq_sinh_div_cosh]
      refine div_nonneg ?_ (Real.cosh_pos _).le
      rw [Real.sinh_nonneg_iff]
      nlinarith [he14]
    have hdiv1 : 1331.22 / Real.exp 14 ≤ 1331.22 / 1100000 := by
      rw [div_le_div_iff (Real.exp_pos 14) (by norm_num : (0:ℝ) < 1100000)]
      nlinarith [he14]
    have hdiv2 : 6763.22 / Real.exp 14 ≤ 6763.22 / 1100000 := by
      rw [div_le_div_iff (Real.exp_pos 14) (by norm_num : (0:ℝ) < 1100000)]
      nlinarith [he14]
    have hstuff : 0 ≤ 53.878 - 1331.22 / Real.exp 14 -
        9.44523 * Real.log (Real.exp 14) + 0.014025 * Real.exp 14 := by
      rw [hlog]
      nlinarith [hdiv1, he14]
    have hlog_es : (399:ℝ) ≤ 54.842763 - 6763.22 / Real.exp 14 -
        4.21 * Real.log (Real.exp 14) + 0.000367 * Real.exp 14 +
        Real.tanh (0.0415 * (Real.exp 14 - 218.8)) *
          (53.878 - 1331.22 / Real.exp 14 - 9.44523 * Real.log (Real.exp 14) +
            0.014025 * Real.exp 14) := by
      rw [hlog] at hstuff ⊢
      nlinarith [mul_nonneg htanh hstuff, hdiv2, he14]
    have hmk : Real.exp 399 / 100 ≤ wv_satpressure_mk (Real.exp 14 - 273.15) := by
      rw [wv_satpressure_mk_eq]
      simp only [hTK]
      exact (div_le_div_right (by norm_num)).mpr (Real.exp_le_exp.mpr hlog_es)
    have hexp_lt : 17.67 * (Real.exp 14 - 273.15) /
        (243.5 + (Real.exp 14 - 273.15)) < 18 := by
      rw [div_lt_iff (by nlinarith [he14] : (0:ℝ) < 243.5 + (Real.exp 14 - 273.15))]
      nlinarith [he14]
    have h6112 : (6.112:ℝ) < Real.exp 2 := by
      calc (6.112:ℝ) < (1 + 2 / 16) ^ (16:ℕ) := by norm_num
        _ ≤ Real.exp 2 := exp_lb16 2 (by norm_num)
    have hinline : wv_sat_inline (Real.exp 14 - 273.15) < Real.exp 20 := by
      unfold wv_sat_inline
      have h1 := Real.exp_lt_exp.mpr hexp_lt
      calc 6.112 * Real.exp (17.67 * (Real.exp 14 - 273.15) /
            (243.5 + (Real.exp 14 - 273.15))) <
          Real.exp 2 * Real.exp 18 :=
            mul_lt_mul'' h6112 h1 (by norm_num) (Real.exp_pos _).le
        _ = Real.exp 20 := by rw [← Real.exp_add]; norm_num
    have hbig : Real.exp 20 < Real.exp 399 / 100 := by
      rw [lt_div_iff (by norm_num : (0:ℝ) < 100)]
      have h399 : Real.exp 399 = Real.exp 20 * Real.exp 379 := by
        rw [← Real.exp_add]; norm_num
      rw [h399]
      have h379 : (380:ℝ) ≤ Real.exp 379 := by
        have := Real.add_one_le_exp (379:ℝ); linarith
      nlinarith [Real.exp_pos 20]
    exact ne_of_lt (lt_of_lt_of_le (hinline.trans hbig) hmk)
